import Mathlib

/-!
# Verification of the data-reduction and rendering pipeline

Shallow embedding of the core algorithms of the performance-dashboard
repository: scale calculation and pixel mapping (`src/lib/canvasUtils.ts`),
the two downsamplers (LTTB and stride), the sliding-window streaming buffer
(`useDataStream` hook), and the aggregators (`src/lib/dataGenerator.ts`).

Numbers are modelled as rationals (`ℚ`): the source operates on JS doubles,
and every claim under study is exact-arithmetic in nature (lengths, element
identity, order, division-by-zero guards).  Array indexing `data[i]` is
modelled with `List.getD i dfltPoint`; every index reached under the claims'
hypotheses is in range, so the default is never observed.
-/

/-- A data point: `{ timestamp, value, category }` from `src/lib/types.ts`
(`metadata` is an optional open map never consulted by the core algorithms,
so it is omitted). -/
structure DataPoint where
  timestamp : ℚ
  value : ℚ
  category : String
deriving DecidableEq, Repr

/-- Default used to totalise `data[i]` indexing. -/
def dfltPoint : DataPoint := ⟨0, 0, ""⟩

/-- Scale factors, from `calculateScales` in `src/lib/canvasUtils.ts`. -/
structure ScaleFactors where
  xMin : ℚ
  xMax : ℚ
  xRange : ℚ
  yMin : ℚ
  yMax : ℚ
  yRange : ℚ
deriving DecidableEq, Repr

/-- `Math.min(...)` over a nonempty collection, seeded with the first value. -/
def listMin (x : ℚ) (l : List ℚ) : ℚ := l.foldl min x

/-- `Math.max(...)` over a nonempty collection, seeded with the first value. -/
def listMax (x : ℚ) (l : List ℚ) : ℚ := l.foldl max x

/-- `calculateScales` (`src/lib/canvasUtils.ts`, lines 31-59).  Empty input
returns the fixed default scale; otherwise min/max over timestamps and
values, with `xMax - xMin || 1` modelled as an `if`-substitution (the JS
`||` replaces a zero range with `1`). -/
def calculateScales : List DataPoint → ScaleFactors
  | [] => ⟨0, 1, 1, 0, 1, 1⟩
  | d :: ds =>
    let xMin := listMin d.timestamp (ds.map (fun p => p.timestamp))
    let xMax := listMax d.timestamp (ds.map (fun p => p.timestamp))
    let yMin := listMin d.value (ds.map (fun p => p.value))
    let yMax := listMax d.value (ds.map (fun p => p.value))
    ⟨xMin, xMax, if xMax - xMin = 0 then 1 else xMax - xMin,
     yMin, yMax, if yMax - yMin = 0 then 1 else yMax - yMin⟩

/-- `dataToCanvas` (`src/lib/canvasUtils.ts`, lines 64-78): map a data point
to canvas coordinates. -/
def dataToCanvas (point : DataPoint) (scales : ScaleFactors)
    (width height padding : ℚ) : ℚ × ℚ :=
  let chartWidth := width - padding * 2
  let chartHeight := height - padding * 2
  let x := padding + ((point.timestamp - scales.xMin) / scales.xRange) * chartWidth
  let y := padding + chartHeight -
    ((point.value - scales.yMin) / scales.yRange) * chartHeight
  (x, y)

/-- One iteration of the bucket loop of `downsampleLTTB`
(`src/lib/canvasUtils.ts`, lines 95-134).  The accumulator carries the
`sampled` list and `a`, the index of the previously selected point.  The
inner `for (j = rangeStart; j < min(rangeEnd, n); j++)` searches for the
candidate with the largest triangle area, strict `>` so the first maximum
wins; it is modelled as a fold over `List.range' rangeStart count`, which
enumerates exactly the indices the loop visits, in order. -/
def lttbStep (data : List DataPoint) (bucketSize : ℚ)
    (acc : List DataPoint × ℕ) (i : ℕ) : List DataPoint × ℕ :=
  let n := data.length
  let avgRangeStart := (⌊((i : ℚ) + 1) * bucketSize⌋ + 1).toNat
  let avgRangeEnd := (⌊((i : ℚ) + 2) * bucketSize⌋ + 1).toNat
  let avgEnd := min avgRangeEnd n
  let avgRangeLength : ℚ := (avgEnd : ℚ) - (avgRangeStart : ℚ)
  let avgIdx := List.range' avgRangeStart (avgEnd - avgRangeStart)
  let avgTimestamp :=
    (avgIdx.map (fun j => (data.getD j dfltPoint).timestamp)).sum / avgRangeLength
  let avgValue :=
    (avgIdx.map (fun j => (data.getD j dfltPoint).value)).sum / avgRangeLength
  let rangeStart := (⌊(i : ℚ) * bucketSize⌋ + 1).toNat
  let rangeEnd := (⌊((i : ℚ) + 1) * bucketSize⌋ + 1).toNat
  let pointA := data.getD acc.2 dfltPoint
  let search := (List.range' rangeStart (min rangeEnd n - rangeStart)).foldl
    (fun st j =>
      let pointB := data.getD j dfltPoint
      let area := |(pointA.timestamp - avgTimestamp) * (pointB.value - pointA.value) -
        (pointA.timestamp - pointB.timestamp) * (avgValue - pointA.value)|
      if st.1 < area then (area, j) else st)
    ((-1 : ℚ), rangeStart)
  (acc.1 ++ [data.getD search.2 dfltPoint], search.2)

/-- `downsampleLTTB` (`src/lib/canvasUtils.ts`, lines 84-139): Largest
Triangle Three Buckets.  Identity below the threshold; otherwise first
point, `threshold - 2` bucket selections, last point. -/
def downsampleLTTB (data : List DataPoint) (threshold : ℕ) : List DataPoint :=
  if data.length ≤ threshold then data
  else
    let bucketSize : ℚ := ((data.length : ℚ) - 2) / ((threshold : ℚ) - 2)
    let r := (List.range (threshold - 2)).foldl (lttbStep data bucketSize)
      ([data.getD 0 dfltPoint], 0)
    r.1 ++ [data.getD (data.length - 1) dfltPoint]

/-- The index set visited by `for (let i = 0; i < n; i += step)`: the
multiples of `step` below `n`, in increasing order (for `step ≥ 1`;
for `step = 0` JS would loop on `i = 0` forever after an infinite `step`,
which cannot arise since the caller guarantees `maxPoints ≥ 1`). -/
def strideIndices (n step : ℕ) : List ℕ :=
  (List.range n).filter (fun i => i % step == 0)

/-- The selected indices of `downsampleSimple` after the force-include of
the final element: the JS test `sampled[sampled.length-1] !== data[n-1]` is
a reference comparison between elements of `data`, i.e. an index comparison
(distinct indices hold distinct array-element objects), modelled by
comparing the last selected index with `n - 1`. -/
def strideAdjust (n step : ℕ) : List ℕ :=
  if (strideIndices n step).getLast? = some (n - 1) then strideIndices n step
  else strideIndices n step ++ [n - 1]

/-- `downsampleSimple` (`src/lib/canvasUtils.ts`, lines 144-163): stride
sampling with `step = ceil(length / maxPoints)` (`(n + m - 1) / m` is exact
natural-number ceiling division on JS doubles in the sizes at play), then
force-include the final element. -/
def downsampleSimple (data : List DataPoint) (maxPoints : ℕ) : List DataPoint :=
  if data.length ≤ maxPoints then data
  else
    (strideAdjust data.length ((data.length + maxPoints - 1) / maxPoints)).map
      (fun i => data.getD i dfltPoint)

/-- `addDataPoint` from the `useDataStream` hook (sliding-window append):
concatenate, then `updated.slice(-maxDataPoints)` when over capacity.
JS `slice(-0)` equals `slice(0)` (the whole array), hence the `= 0` branch;
for `maxDataPoints ≥ 1`, `slice(-k)` keeps the last `k` elements, modelled
by dropping all but the last `maxDataPoints`. -/
def addDataPoint (maxDataPoints : ℕ) (prevData newPoints : List DataPoint) :
    List DataPoint :=
  let updated := prevData ++ newPoints
  if maxDataPoints < updated.length then
    if maxDataPoints = 0 then updated
    else updated.drop (updated.length - maxDataPoints)
  else updated

/-- `replaceData` from the `useDataStream` hook: `setData(newData)` — the
previous contents and the configured capacity are simply not consulted. -/
def replaceData (prevData newData : List DataPoint) : List DataPoint :=
  newData

/-- Insertion-ordered update of the category record built by
`aggregateByCategory` (`acc[cat] = (acc[cat] || 0) + value`): an existing
key is updated in place, a new key is appended at the end, matching JS
object string-key order. -/
def updateCategory : List (String × ℚ) → String → ℚ → List (String × ℚ)
  | [], cat, v => [(cat, v)]
  | (c, s) :: rest, cat, v =>
    if c = cat then (c, s + v) :: rest
    else (c, s) :: updateCategory rest cat v

/-- `aggregateByCategory` (`src/lib/dataGenerator.ts`, lines 114-119). -/
def aggregateByCategory (data : List DataPoint) : List (String × ℚ) :=
  data.foldl (fun acc p => updateCategory acc p.category p.value) []

/-- Bucket key of a timestamp: `Math.floor(timestamp / windowMs) * windowMs`. -/
def windowKey (windowMs ts : ℚ) : ℚ := (⌊ts / windowMs⌋ : ℚ) * windowMs

/-- Insertion-ordered update of the `Map<number, {sum, count}>` of
`aggregateByTimeWindow`: `Map.set` on an existing key updates in place, a
new key is appended at the end (JS `Map` iterates in insertion order). -/
def updateWindows : List (ℚ × ℚ × ℕ) → ℚ → ℚ → List (ℚ × ℚ × ℕ)
  | [], key, v => [(key, v, 1)]
  | (k, s, c) :: rest, key, v =>
    if k = key then (k, s + v, c + 1) :: rest
    else (k, s, c) :: updateWindows rest key v

/-- `aggregateByTimeWindow` (`src/lib/dataGenerator.ts`, lines 124-145). -/
def aggregateByTimeWindow (data : List DataPoint) (windowMs : ℚ) :
    List DataPoint :=
  if data.isEmpty then []
  else
    (data.foldl
      (fun ws p => updateWindows ws (windowKey windowMs p.timestamp) p.value)
      []).map
      (fun e => ⟨e.1, e.2.1 / (e.2.2 : ℚ), "aggregated"⟩)

/-- Specification-side view of the bucket map's key set: the bucket keys
present in `data`, in order of first occurrence — the iteration order of
the JS `Map` built by `aggregateByTimeWindow`. -/
def bucketKeys (data : List DataPoint) (w : ℚ) : List ℚ :=
  data.foldl
    (fun acc p =>
      if windowKey w p.timestamp ∈ acc then acc
      else acc ++ [windowKey w p.timestamp]) []

/-- Specification-side view: sum of the values of the points of `data`
falling in bucket `k`. -/
def bucketSum (data : List DataPoint) (w k : ℚ) : ℚ :=
  ((data.filter (fun p => decide (windowKey w p.timestamp = k))).map
    (fun p => p.value)).sum

/-- Specification-side view: number of points of `data` falling in
bucket `k`. -/
def bucketCount (data : List DataPoint) (w k : ℚ) : ℕ :=
  (data.filter (fun p => decide (windowKey w p.timestamp = k))).length

/-- Sample point used by concrete witnesses. -/
def sp (i : ℕ) : DataPoint := ⟨(i : ℚ), (i : ℚ), "A"⟩

-- ===========================================================================
-- C5: identity below the limit
-- ===========================================================================

/-- C5: for every point sequence whose length is at most the limit, both
downsamplers (stride with `maxPoints = limit`, LTTB with
`threshold = limit`) return the input unchanged. -/
theorem downsample_identity_below_limit (data : List DataPoint) (limit : ℕ)
    (h : data.length ≤ limit) :
    downsampleLTTB data limit = data ∧ downsampleSimple data limit = data := by
  constructor
  · unfold downsampleLTTB
    simp [h]
  · unfold downsampleSimple
    simp [h]

/-- Witness for C5 at a concrete two-point input with limit 3. -/
theorem downsample_identity_below_limit_witness :
    [dfltPoint, dfltPoint].length ≤ 3 ∧
      (downsampleLTTB [dfltPoint, dfltPoint] 3 = [dfltPoint, dfltPoint] ∧
       downsampleSimple [dfltPoint, dfltPoint] 3 = [dfltPoint, dfltPoint]) :=
  ⟨by decide, downsample_identity_below_limit [dfltPoint, dfltPoint] 3 (by decide)⟩

-- ===========================================================================
-- C6: ranges are never zero
-- ===========================================================================

/-- C6: for every point sequence the computed scale has nonzero `xRange`
and `yRange` (a zero max-minus-min is substituted with 1), and in
particular a single-point sequence yields `xRange = 1` and `yRange = 1`,
so the divisions in `dataToCanvas` never divide by zero. -/
theorem calculateScales_ranges_nonzero (data : List DataPoint) (p : DataPoint) :
    ((calculateScales data).xRange ≠ 0 ∧ (calculateScales data).yRange ≠ 0) ∧
      ((calculateScales [p]).xRange = 1 ∧ (calculateScales [p]).yRange = 1) := by
  refine ⟨?_, ?_⟩
  · cases data with
    | nil => exact ⟨one_ne_zero, one_ne_zero⟩
    | cons d ds =>
      constructor
      · show (if _ = 0 then 1 else _) ≠ 0
        split
        · exact one_ne_zero
        · assumption
      · show (if _ = 0 then 1 else _) ≠ 0
        split
        · exact one_ne_zero
        · assumption
  · constructor
    · show (if _ - _ = 0 then 1 else _) = 1
      simp [listMin, listMax]
    · show (if _ - _ = 0 then 1 else _) = 1
      simp [listMin, listMax]

-- ===========================================================================
-- C8: graceful empty-input behavior
-- ===========================================================================

/-- C8: on the empty input sequence every core operation returns its
documented default or empty result (and, being total Lean functions over
lists, none signals an error): `calculateScales` returns the fixed default
scale, both downsamplers return the empty sequence, category aggregation
returns an empty mapping, and time-window aggregation returns an empty
sequence. -/
theorem empty_input_defaults (threshold maxPoints : ℕ) (windowMs : ℚ) :
    calculateScales [] = ⟨0, 1, 1, 0, 1, 1⟩ ∧
      downsampleLTTB [] threshold = [] ∧
      downsampleSimple [] maxPoints = [] ∧
      aggregateByCategory [] = [] ∧
      aggregateByTimeWindow [] windowMs = [] := by
  refine ⟨rfl, ?_, ?_, rfl, rfl⟩
  · unfold downsampleLTTB
    simp
  · unfold downsampleSimple
    simp

-- ===========================================================================
-- C9: replace adopts the sequence wholesale
-- ===========================================================================

/-- C9: for every buffer state, every capacity, and every replacement
sequence (however long relative to the capacity), `replaceData` makes the
buffer contents exactly the given sequence — no truncation or eviction. -/
theorem replaceData_no_truncation (maxDataPoints : ℕ)
    (prevData newData : List DataPoint) :
    replaceData prevData newData = newData ∧
      (replaceData prevData newData).length = newData.length :=
  ⟨rfl, rfl⟩

-- ===========================================================================
-- C2: sliding-window append semantics
-- ===========================================================================

/-- C2: appending to a buffer yields the concatenation when it fits within
`maxDataPoints`, and otherwise a suffix of the concatenation of length
exactly `maxDataPoints` — i.e. the last `maxDataPoints` elements in their
original relative order. -/
theorem addDataPoint_sliding_window (maxDataPoints : ℕ)
    (prevData newPoints : List DataPoint) (h : 1 ≤ maxDataPoints) :
    addDataPoint maxDataPoints prevData newPoints <:+ prevData ++ newPoints ∧
      (addDataPoint maxDataPoints prevData newPoints).length
        = min (prevData ++ newPoints).length maxDataPoints ∧
      ((prevData ++ newPoints).length ≤ maxDataPoints →
        addDataPoint maxDataPoints prevData newPoints = prevData ++ newPoints) := by
  unfold addDataPoint
  by_cases hlt : maxDataPoints < (prevData ++ newPoints).length
  · rw [if_pos hlt, if_neg (by omega : ¬ maxDataPoints = 0)]
    refine ⟨List.drop_suffix _ _, ?_, fun hle => absurd hlt (by omega)⟩
    rw [List.length_drop]
    omega
  · rw [if_neg hlt]
    exact ⟨List.suffix_refl _, by omega, fun _ => rfl⟩

/-- Witness for C2: capacity 3, buffer `[1,2]`, appending `[3,4,5]`. -/
theorem addDataPoint_sliding_window_witness :
    1 ≤ 3 ∧
      (addDataPoint 3 [sp 1, sp 2] [sp 3, sp 4, sp 5]
          <:+ [sp 1, sp 2] ++ [sp 3, sp 4, sp 5] ∧
        (addDataPoint 3 [sp 1, sp 2] [sp 3, sp 4, sp 5]).length
          = min ([sp 1, sp 2] ++ [sp 3, sp 4, sp 5]).length 3 ∧
        (([sp 1, sp 2] ++ [sp 3, sp 4, sp 5]).length ≤ 3 →
          addDataPoint 3 [sp 1, sp 2] [sp 3, sp 4, sp 5]
            = [sp 1, sp 2] ++ [sp 3, sp 4, sp 5])) :=
  ⟨by decide, addDataPoint_sliding_window 3 [sp 1, sp 2] [sp 3, sp 4, sp 5] (by decide)⟩

-- ===========================================================================
-- C4: stride downsampler output-length bound
-- ===========================================================================

/-- Counterexample to C4 as stated: eight points with `maxPoints = 3` give
`step = 3`, stride indices `[0, 3, 6]`, and the force-included final
element brings the output to 4 points, exceeding `maxPoints`. -/
theorem downsampleSimple_exceeds_maxPoints :
    ¬ ((downsampleSimple
        [sp 0, sp 1, sp 2, sp 3, sp 4, sp 5, sp 6, sp 7] 3).length ≤ 3) := by
  decide

lemma strideIndices_succ (n step : ℕ) :
    strideIndices (n + 1) step
      = strideIndices n step ++ if n % step = 0 then [n] else [] := by
  unfold strideIndices
  rw [List.range_succ, List.filter_append]
  congr 1
  by_cases hd : n % step = 0 <;> simp [hd]

lemma strideIndices_length (step : ℕ) (hstep : 1 ≤ step) (n : ℕ) :
    (strideIndices n step).length = (n + step - 1) / step := by
  induction n with
  | zero =>
    have : step - 1 < step := by omega
    simp [strideIndices, Nat.div_eq_of_lt this]
  | succ n ih =>
    rw [strideIndices_succ, List.length_append, ih]
    have harith : n + 1 + step - 1 = (n + step - 1) + 1 := by omega
    rw [harith, Nat.succ_div]
    have harith2 : n + step - 1 + 1 = n + step := by omega
    rw [harith2]
    by_cases hd : step ∣ n
    · rw [if_pos ((Nat.dvd_add_self_right).mpr hd),
        if_pos (Nat.dvd_iff_mod_eq_zero.mp hd)]
      simp
    · rw [if_neg (fun hc => hd ((Nat.dvd_add_self_right).mp hc)),
        if_neg (fun hc => hd (Nat.dvd_iff_mod_eq_zero.mpr hc))]
      simp

/-- C4 (amended): for `maxPoints ≥ 1` and input longer than `maxPoints`,
the stride downsampler returns at most `maxPoints + 1` points (the stride
itself selects at most `maxPoints` indices; the force-included final
element can add one more). -/
theorem downsampleSimple_length_le (data : List DataPoint) (maxPoints : ℕ)
    (h1 : 1 ≤ maxPoints) (h2 : maxPoints < data.length) :
    (downsampleSimple data maxPoints).length ≤ maxPoints + 1 := by
  unfold downsampleSimple
  rw [if_neg (not_le.mpr h2)]
  rw [List.length_map]
  have hn : 2 ≤ data.length := by omega
  have hstep : 1 ≤ (data.length + maxPoints - 1) / maxPoints := by
    rw [Nat.le_div_iff_mul_le (by omega : 0 < maxPoints)]
    omega
  have hcount := strideIndices_length _ hstep data.length
  have hmod := Nat.div_add_mod (data.length + maxPoints - 1) maxPoints
  have hmodlt := Nat.mod_lt (data.length + maxPoints - 1)
    (by omega : 0 < maxPoints)
  have hmul : data.length ≤ ((data.length + maxPoints - 1) / maxPoints) * maxPoints := by
    rw [Nat.mul_comm]
    omega
  have hbound : (strideIndices data.length
      ((data.length + maxPoints - 1) / maxPoints)).length ≤ maxPoints := by
    rw [hcount]
    rw [Nat.div_le_iff_le_mul_add_pred (by omega : 0 < (data.length + maxPoints - 1) / maxPoints)]
    omega
  unfold strideAdjust
  split
  · omega
  · rw [List.length_append]
    simp only [List.length_singleton]
    omega

/-- Witness for the amended C4 at eight points with `maxPoints = 3`
(where the output has exactly 4 = `maxPoints + 1` points). -/
theorem downsampleSimple_length_le_witness :
    (1 ≤ 3 ∧ 3 < [sp 0, sp 1, sp 2, sp 3, sp 4, sp 5, sp 6, sp 7].length) ∧
      (downsampleSimple [sp 0, sp 1, sp 2, sp 3, sp 4, sp 5, sp 6, sp 7] 3).length
        ≤ 3 + 1 :=
  ⟨⟨by decide, by decide⟩,
    downsampleSimple_length_le [sp 0, sp 1, sp 2, sp 3, sp 4, sp 5, sp 6, sp 7] 3
      (by decide) (by decide)⟩

-- ===========================================================================
-- C1: LTTB shape (length, first, last)
-- ===========================================================================

lemma lttbStep_fst (data : List DataPoint) (bs : ℚ)
    (acc : List DataPoint × ℕ) (i : ℕ) :
    (lttbStep data bs acc i).1
      = acc.1 ++ [data.getD (lttbStep data bs acc i).2 dfltPoint] := rfl

lemma lttb_foldl_shape (data : List DataPoint) (bs : ℚ) :
    ∀ (l : List ℕ) (acc : List DataPoint × ℕ),
      ∃ t : List DataPoint,
        (l.foldl (lttbStep data bs) acc).1 = acc.1 ++ t ∧ t.length = l.length := by
  intro l
  induction l with
  | nil => exact fun acc => ⟨[], by simp⟩
  | cons i l ih =>
    intro acc
    obtain ⟨t, ht, hlen⟩ := ih (lttbStep data bs acc i)
    refine ⟨data.getD (lttbStep data bs acc i).2 dfltPoint :: t, ?_, by simp [hlen]⟩
    rw [List.foldl_cons, ht, lttbStep_fst]
    simp

lemma downsampleLTTB_eq (data : List DataPoint) (threshold : ℕ)
    (h : ¬ data.length ≤ threshold) :
    downsampleLTTB data threshold =
      ((List.range (threshold - 2)).foldl
        (lttbStep data (((data.length : ℚ) - 2) / ((threshold : ℚ) - 2)))
        ([data.getD 0 dfltPoint], 0)).1
      ++ [data.getD (data.length - 1) dfltPoint] := by
  unfold downsampleLTTB
  rw [if_neg h]

lemma getLast?_eq_getD {α : Type} (d : α) :
    ∀ l : List α, l ≠ [] → l.getLast? = some (l.getD (l.length - 1) d) := by
  intro l
  induction l with
  | nil => exact fun h => absurd rfl h
  | cons x l ih =>
    intro _
    cases l with
    | nil => rfl
    | cons y t =>
      rw [List.getLast?_cons_cons, ih (by simp)]
      have hl : (x :: y :: t).length - 1 = (y :: t).length - 1 + 1 := by simp
      rw [hl, List.getD_cons_succ]

/-- C1: for `threshold ≥ 3` and input longer than `threshold`, LTTB returns
exactly `threshold` points, and its first and last elements equal the
input's first and last elements. -/
theorem downsampleLTTB_shape (data : List DataPoint) (threshold : ℕ)
    (h3 : 3 ≤ threshold) (hlen : threshold < data.length) :
    (downsampleLTTB data threshold).length = threshold ∧
      (downsampleLTTB data threshold).head? = data.head? ∧
      (downsampleLTTB data threshold).getLast? = data.getLast? := by
  have hne : ¬ data.length ≤ threshold := not_le.mpr hlen
  obtain ⟨t, ht, htlen⟩ := lttb_foldl_shape data
    (((data.length : ℚ) - 2) / ((threshold : ℚ) - 2))
    (List.range (threshold - 2)) ([data.getD 0 dfltPoint], 0)
  have hnil : data ≠ [] := by
    intro hc
    rw [hc] at hlen
    simp at hlen
  rw [downsampleLTTB_eq data threshold hne, ht]
  refine ⟨?_, ?_, ?_⟩
  · rw [List.length_append, List.length_append, htlen, List.length_range]
    simp only [List.length_singleton]
    omega
  · cases data with
    | nil => exact absurd rfl hnil
    | cons a l => rfl
  · rw [List.getLast?_concat, getLast?_eq_getD dfltPoint data hnil]

-- ===========================================================================
-- C7: pixel mapping of the extreme points
-- ===========================================================================

lemma calculateScales_xRange (data : List DataPoint) (hne : data ≠ [])
    (hx : (calculateScales data).xMax - (calculateScales data).xMin ≠ 0) :
    (calculateScales data).xRange
      = (calculateScales data).xMax - (calculateScales data).xMin := by
  cases data with
  | nil => exact absurd rfl hne
  | cons d ds =>
    show (if (calculateScales (d :: ds)).xMax - (calculateScales (d :: ds)).xMin = 0
        then 1 else (calculateScales (d :: ds)).xMax - (calculateScales (d :: ds)).xMin)
      = (calculateScales (d :: ds)).xMax - (calculateScales (d :: ds)).xMin
    rw [if_neg hx]

lemma calculateScales_yRange (data : List DataPoint) (hne : data ≠ [])
    (hy : (calculateScales data).yMax - (calculateScales data).yMin ≠ 0) :
    (calculateScales data).yRange
      = (calculateScales data).yMax - (calculateScales data).yMin := by
  cases data with
  | nil => exact absurd rfl hne
  | cons d ds =>
    show (if (calculateScales (d :: ds)).yMax - (calculateScales (d :: ds)).yMin = 0
        then 1 else (calculateScales (d :: ds)).yMax - (calculateScales (d :: ds)).yMin)
      = (calculateScales (d :: ds)).yMax - (calculateScales (d :: ds)).yMin
    rw [if_neg hy]

/-- Counterexample to C7 as stated: on the single-point (degenerate-range)
sequence `[⟨5, 5⟩]` the scale substitutes `xRange = yRange = 1`, and the
point — which is both the `xMax` and `yMax` point — maps to `(0, 50)` on a
`100 × 50` rectangle, not to `(100, 0)`. -/
theorem dataToCanvas_degenerate_counterexample :
    (calculateScales [⟨5, 5, "A"⟩]).xMax = (5 : ℚ) ∧
      (calculateScales [⟨5, 5, "A"⟩]).yMax = (5 : ℚ) ∧
      dataToCanvas ⟨5, 5, "A"⟩ (calculateScales [⟨5, 5, "A"⟩]) 100 50 0
        ≠ ((100 : ℚ), (0 : ℚ)) := by
  have hscale : calculateScales [⟨5, 5, "A"⟩] = ⟨5, 5, 1, 5, 5, 1⟩ := by
    norm_num [calculateScales, listMin, listMax]
  refine ⟨by rw [hscale], by rw [hscale], ?_⟩
  rw [hscale]
  norm_num [dataToCanvas, Prod.ext_iff]

/-- C7 (amended): for every non-empty point sequence whose scale is
non-degenerate on both axes (`xMax ≠ xMin` and `yMax ≠ yMin`), mapping the
`(xMin, yMin)` point with padding 0 onto a `width × height` rectangle
yields `(0, height)`, and mapping the `(xMax, yMax)` point yields
`(width, 0)` (value axis inverted). -/
theorem dataToCanvas_corners (data : List DataPoint) (p q : DataPoint)
    (width height : ℚ) (hne : data ≠ [])
    (hx : (calculateScales data).xMax - (calculateScales data).xMin ≠ 0)
    (hy : (calculateScales data).yMax - (calculateScales data).yMin ≠ 0)
    (hpx : p.timestamp = (calculateScales data).xMin)
    (hpy : p.value = (calculateScales data).yMin)
    (hqx : q.timestamp = (calculateScales data).xMax)
    (hqy : q.value = (calculateScales data).yMax) :
    dataToCanvas p (calculateScales data) width height 0 = (0, height) ∧
      dataToCanvas q (calculateScales data) width height 0 = (width, 0) := by
  have hxr := calculateScales_xRange data hne hx
  have hyr := calculateScales_yRange data hne hy
  constructor
  · simp only [dataToCanvas, hpx, hpy, sub_self, zero_div, zero_mul, mul_zero]
    norm_num
  · simp only [dataToCanvas, hqx, hqy, hxr, hyr, mul_zero]
    rw [div_self hx, div_self hy]
    norm_num

/-- Witness for the amended C7 on the two-point sequence
`[(0, 0), (10, 20)]` mapped onto a `100 × 50` rectangle. -/
theorem dataToCanvas_corners_witness :
    (([⟨0, 0, "A"⟩, ⟨10, 20, "B"⟩] : List DataPoint) ≠ [] ∧
      (calculateScales [⟨0, 0, "A"⟩, ⟨10, 20, "B"⟩]).xMax
        - (calculateScales [⟨0, 0, "A"⟩, ⟨10, 20, "B"⟩]).xMin ≠ 0 ∧
      (calculateScales [⟨0, 0, "A"⟩, ⟨10, 20, "B"⟩]).yMax
        - (calculateScales [⟨0, 0, "A"⟩, ⟨10, 20, "B"⟩]).yMin ≠ 0 ∧
      (⟨0, 0, "A"⟩ : DataPoint).timestamp
        = (calculateScales [⟨0, 0, "A"⟩, ⟨10, 20, "B"⟩]).xMin ∧
      (⟨0, 0, "A"⟩ : DataPoint).value
        = (calculateScales [⟨0, 0, "A"⟩, ⟨10, 20, "B"⟩]).yMin ∧
      (⟨10, 20, "B"⟩ : DataPoint).timestamp
        = (calculateScales [⟨0, 0, "A"⟩, ⟨10, 20, "B"⟩]).xMax ∧
      (⟨10, 20, "B"⟩ : DataPoint).value
        = (calculateScales [⟨0, 0, "A"⟩, ⟨10, 20, "B"⟩]).yMax) ∧
      (dataToCanvas ⟨0, 0, "A"⟩ (calculateScales [⟨0, 0, "A"⟩, ⟨10, 20, "B"⟩])
          100 50 0 = (0, 50) ∧
        dataToCanvas ⟨10, 20, "B"⟩ (calculateScales [⟨0, 0, "A"⟩, ⟨10, 20, "B"⟩])
          100 50 0 = (100, 0)) := by
  have hscale : calculateScales [⟨0, 0, "A"⟩, ⟨10, 20, "B"⟩]
      = ⟨0, 10, 10, 0, 20, 20⟩ := by
    norm_num [calculateScales, listMin, listMax]
  refine ⟨⟨by simp, ?_, ?_, ?_, ?_, ?_, ?_⟩,
    dataToCanvas_corners [⟨0, 0, "A"⟩, ⟨10, 20, "B"⟩] ⟨0, 0, "A"⟩ ⟨10, 20, "B"⟩
      100 50 (by simp) ?_ ?_ ?_ ?_ ?_ ?_⟩ <;>
    rw [hscale] <;> norm_num

/-- Witness for C1 at five points with `threshold = 3`. -/
theorem downsampleLTTB_shape_witness :
    (3 ≤ 3 ∧ 3 < [sp 0, sp 1, sp 2, sp 3, sp 4].length) ∧
      ((downsampleLTTB [sp 0, sp 1, sp 2, sp 3, sp 4] 3).length = 3 ∧
        (downsampleLTTB [sp 0, sp 1, sp 2, sp 3, sp 4] 3).head?
          = [sp 0, sp 1, sp 2, sp 3, sp 4].head? ∧
        (downsampleLTTB [sp 0, sp 1, sp 2, sp 3, sp 4] 3).getLast?
          = [sp 0, sp 1, sp 2, sp 3, sp 4].getLast?) :=
  ⟨⟨by decide, by decide⟩,
    downsampleLTTB_shape [sp 0, sp 1, sp 2, sp 3, sp 4] 3 (by decide) (by decide)⟩

-- ===========================================================================
-- C3 / C10: time-window aggregation
-- ===========================================================================

lemma bucketKeys_append (l : List DataPoint) (p : DataPoint) (w : ℚ) :
    bucketKeys (l ++ [p]) w =
      if windowKey w p.timestamp ∈ bucketKeys l w then bucketKeys l w
      else bucketKeys l w ++ [windowKey w p.timestamp] := by
  unfold bucketKeys
  rw [List.foldl_append]
  rfl

lemma bucketSum_append (l : List DataPoint) (p : DataPoint) (w k : ℚ) :
    bucketSum (l ++ [p]) w k
      = bucketSum l w k
        + (if k = windowKey w p.timestamp then p.value else 0) := by
  unfold bucketSum
  rw [List.filter_append, List.map_append, List.sum_append]
  congr 1
  by_cases hk : k = windowKey w p.timestamp
  · simp [hk]
  · simp [hk, Ne.symm hk]

lemma bucketCount_append (l : List DataPoint) (p : DataPoint) (w k : ℚ) :
    bucketCount (l ++ [p]) w k
      = bucketCount l w k + (if k = windowKey w p.timestamp then 1 else 0) := by
  unfold bucketCount
  rw [List.filter_append, List.length_append]
  congr 1
  by_cases hk : k = windowKey w p.timestamp
  · simp [hk]
  · simp [hk, Ne.symm hk]

lemma mem_bucketKeys_aux (w : ℚ) :
    ∀ (data : List DataPoint) (acc : List ℚ) (k : ℚ),
      (k ∈ data.foldl
        (fun acc p =>
          if windowKey w p.timestamp ∈ acc then acc
          else acc ++ [windowKey w p.timestamp]) acc)
        ↔ k ∈ acc ∨ ∃ p ∈ data, windowKey w p.timestamp = k := by
  intro data
  induction data with
  | nil => intro acc k; simp
  | cons q data ih =>
    intro acc k
    rw [List.foldl_cons]
    by_cases hq : windowKey w q.timestamp ∈ acc
    · rw [if_pos hq, ih]
      constructor
      · rintro (h | ⟨p, hp, hpk⟩)
        · exact Or.inl h
        · exact Or.inr ⟨p, List.mem_cons_of_mem q hp, hpk⟩
      · rintro (h | ⟨p, hp, hpk⟩)
        · exact Or.inl h
        · rcases List.mem_cons.mp hp with hpq | hp2
          · subst hpq
            exact Or.inl (hpk ▸ hq)
          · exact Or.inr ⟨p, hp2, hpk⟩
    · rw [if_neg hq, ih]
      constructor
      · rintro (h | ⟨p, hp, hpk⟩)
        · rcases List.mem_append.mp h with h1 | h2
          · exact Or.inl h1
          · exact Or.inr ⟨q, List.mem_cons_self q data,
              (List.mem_singleton.mp h2).symm⟩
        · exact Or.inr ⟨p, List.mem_cons_of_mem q hp, hpk⟩
      · rintro (h | ⟨p, hp, hpk⟩)
        · exact Or.inl (List.mem_append.mpr (Or.inl h))
        · rcases List.mem_cons.mp hp with hpq | hp2
          · subst hpq
            exact Or.inl (List.mem_append.mpr
              (Or.inr (List.mem_singleton.mpr hpk.symm)))
          · exact Or.inr ⟨p, hp2, hpk⟩

lemma mem_bucketKeys (data : List DataPoint) (w k : ℚ) :
    k ∈ bucketKeys data w ↔ ∃ p ∈ data, windowKey w p.timestamp = k := by
  unfold bucketKeys
  rw [mem_bucketKeys_aux]
  simp

lemma bucketKeys_nodup_aux (w : ℚ) :
    ∀ (data : List DataPoint) (acc : List ℚ), acc.Nodup →
      (data.foldl
        (fun acc p =>
          if windowKey w p.timestamp ∈ acc then acc
          else acc ++ [windowKey w p.timestamp]) acc).Nodup := by
  intro data
  induction data with
  | nil => intro acc h; exact h
  | cons q data ih =>
    intro acc hacc
    rw [List.foldl_cons]
    by_cases hq : windowKey w q.timestamp ∈ acc
    · rw [if_pos hq]
      exact ih acc hacc
    · rw [if_neg hq]
      refine ih _ ?_
      refine List.Nodup.append hacc (List.nodup_singleton _) ?_
      intro b hb hbx
      rw [List.mem_singleton] at hbx
      subst hbx
      exact hq hb

lemma bucketKeys_nodup (data : List DataPoint) (w : ℚ) :
    (bucketKeys data w).Nodup :=
  bucketKeys_nodup_aux w data [] List.nodup_nil

lemma bucketSum_eq_zero (data : List DataPoint) (w k : ℚ)
    (h : k ∉ bucketKeys data w) : bucketSum data w k = 0 := by
  unfold bucketSum
  have hf : data.filter (fun p => decide (windowKey w p.timestamp = k)) = [] := by
    rw [List.filter_eq_nil_iff]
    intro p hp
    simp only [decide_eq_true_eq]
    intro hpk
    exact h ((mem_bucketKeys data w k).mpr ⟨p, hp, hpk⟩)
  rw [hf]
  rfl

lemma bucketCount_eq_zero (data : List DataPoint) (w k : ℚ)
    (h : k ∉ bucketKeys data w) : bucketCount data w k = 0 := by
  unfold bucketCount
  have hf : data.filter (fun p => decide (windowKey w p.timestamp = k)) = [] := by
    rw [List.filter_eq_nil_iff]
    intro p hp
    simp only [decide_eq_true_eq]
    intro hpk
    exact h ((mem_bucketKeys data w k).mpr ⟨p, hp, hpk⟩)
  rw [hf]
  rfl

lemma updateWindows_spec (v : ℚ) :
    ∀ (K : List ℚ) (key : ℚ) (sm : ℚ → ℚ) (ct : ℚ → ℕ),
      K.Nodup → (key ∉ K → sm key = 0) → (key ∉ K → ct key = 0) →
      updateWindows (K.map (fun k => (k, sm k, ct k))) key v
        = (if key ∈ K then K else K ++ [key]).map
            (fun k =>
              if k = key then (k, sm k + v, ct k + 1) else (k, sm k, ct k)) := by
  intro K
  induction K with
  | nil =>
    intro key sm ct _ hs hc
    simp [updateWindows, hs (List.not_mem_nil key), hc (List.not_mem_nil key)]
  | cons k0 K ih =>
    intro key sm ct hnd hs hc
    rw [List.map_cons]
    by_cases hk : k0 = key
    · have h0 : k0 ∉ K := (List.nodup_cons.mp hnd).1
      have hkeyK : key ∉ K := hk ▸ h0
      have hmem : key ∈ k0 :: K := List.mem_cons.mpr (Or.inl hk.symm)
      rw [if_pos hmem, List.map_cons]
      simp only [updateWindows]
      rw [if_pos hk, if_pos hk]
      congr 1
      apply List.map_congr_left
      intro k hkK
      have hkne : ¬ k = key := fun hc2 => hkeyK (hc2 ▸ hkK)
      rw [if_neg hkne]
    · have hs2 : key ∉ K → sm key = 0 := fun hKn => hs (fun hmem =>
        (List.mem_cons.mp hmem).elim (fun h1 => hk h1.symm) hKn)
      have hc2 : key ∉ K → ct key = 0 := fun hKn => hc (fun hmem =>
        (List.mem_cons.mp hmem).elim (fun h1 => hk h1.symm) hKn)
      simp only [updateWindows]
      rw [if_neg hk, ih key sm ct (List.nodup_cons.mp hnd).2 hs2 hc2]
      by_cases hmem : key ∈ K
      · rw [if_pos hmem, if_pos (List.mem_cons.mpr (Or.inr hmem)), List.map_cons,
          if_neg hk]
      · rw [if_neg hmem,
          if_neg (fun hmm => (List.mem_cons.mp hmm).elim
            (fun h1 => hk h1.symm) hmem),
          List.cons_append, List.map_cons, if_neg hk]

lemma agg_foldl (w : ℚ) (data : List DataPoint) :
    data.foldl (fun ws p => updateWindows ws (windowKey w p.timestamp) p.value) []
      = (bucketKeys data w).map
          (fun k => (k, bucketSum data w k, bucketCount data w k)) := by
  induction data using List.reverseRecOn with
  | nil => rfl
  | append_singleton l p ih =>
    rw [List.foldl_append, List.foldl_cons, List.foldl_nil, ih]
    rw [updateWindows_spec p.value (bucketKeys l w) (windowKey w p.timestamp)
      (bucketSum l w) (bucketCount l w) (bucketKeys_nodup l w)
      (bucketSum_eq_zero l w _) (bucketCount_eq_zero l w _)]
    rw [bucketKeys_append]
    by_cases hmem : windowKey w p.timestamp ∈ bucketKeys l w
    · rw [if_pos hmem]
      apply List.map_congr_left
      intro k hkK
      rw [bucketSum_append, bucketCount_append]
      by_cases hke : k = windowKey w p.timestamp
      · rw [if_pos hke, if_pos hke, if_pos hke]
      · rw [if_neg hke, if_neg hke, if_neg hke]
        simp
    · rw [if_neg hmem]
      apply List.map_congr_left
      intro k hkK
      rw [bucketSum_append, bucketCount_append]
      by_cases hke : k = windowKey w p.timestamp
      · rw [if_pos hke, if_pos hke, if_pos hke]
      · rw [if_neg hke, if_neg hke, if_neg hke]
        simp

lemma aggregateByTimeWindow_eq (data : List DataPoint) (w : ℚ) :
    aggregateByTimeWindow data w
      = (bucketKeys data w).map
          (fun k =>
            ⟨k, bucketSum data w k / (bucketCount data w k : ℚ),
              "aggregated"⟩) := by
  unfold aggregateByTimeWindow
  cases data with
  | nil => rfl
  | cons q l =>
    rw [if_neg (by simp), agg_foldl w (q :: l), List.map_map]
    rfl

lemma agg_timestamps (data : List DataPoint) (w : ℚ) :
    (aggregateByTimeWindow data w).map (fun q => q.timestamp)
      = bucketKeys data w := by
  rw [aggregateByTimeWindow_eq, List.map_map]
  exact List.map_id _

/-- Counterexample to C3 as stated: out-of-order input `[(150, 30), (0, 10)]`
with `windowMs = 100` inserts bucket 100 before bucket 0 into the map, so
the emitted sequence has timestamps `[100, 0]` — not ascending. -/
theorem aggregateByTimeWindow_not_ascending :
    ¬ (((aggregateByTimeWindow [⟨150, 30, "A"⟩, ⟨0, 10, "A"⟩] 100).map
      (fun q => q.timestamp)).Pairwise (· ≤ ·)) := by
  have hf1 : ⌊(150 : ℚ) / 100⌋ = 1 := by
    rw [Int.floor_eq_iff]
    norm_num
  have hf2 : ⌊(0 : ℚ) / 100⌋ = 0 := by
    rw [Int.floor_eq_iff]
    norm_num
  have h : aggregateByTimeWindow [⟨150, 30, "A"⟩, ⟨0, 10, "A"⟩] 100
      = [⟨100, 30, "aggregated"⟩, ⟨0, 10, "aggregated"⟩] := by
    norm_num [aggregateByTimeWindow, updateWindows, windowKey, hf1, hf2]
  rw [h]
  intro hpw
  have h2 := (List.pairwise_cons.mp hpw).1 (0 : ℚ) (by simp)
  norm_num at h2

/-- C3 (amended): for every point sequence and `windowMs > 0`, time-window
aggregation emits exactly one synthetic point per non-empty bucket — the
bucket keys are `floor(timestamp / windowMs) * windowMs` of the input
points, without duplicates — whose value is the arithmetic mean
(sum / count) of that bucket's values, whose timestamp is the bucket key,
and whose category is the sentinel label; the emitted sequence is ordered
by first occurrence of each bucket in the input (the map's insertion
order), not necessarily ascending. -/
theorem aggregateByTimeWindow_spec (data : List DataPoint) (w : ℚ)
    (hw : 0 < w) :
    (aggregateByTimeWindow data w).map (fun q => q.timestamp)
        = bucketKeys data w ∧
      (∀ k, k ∈ bucketKeys data w ↔ ∃ p ∈ data, windowKey w p.timestamp = k) ∧
      (bucketKeys data w).Nodup ∧
      ∀ q ∈ aggregateByTimeWindow data w,
        q.value
            = bucketSum data w q.timestamp / (bucketCount data w q.timestamp : ℚ)
          ∧ q.category = "aggregated" := by
  refine ⟨agg_timestamps data w, fun k => mem_bucketKeys data w k,
    bucketKeys_nodup data w, ?_⟩
  intro q hq
  rw [aggregateByTimeWindow_eq] at hq
  obtain ⟨k, hk, rfl⟩ := List.mem_map.mp hq
  exact ⟨rfl, rfl⟩

/-- Witness for the amended C3 at the spec's example: timestamps
`[0, 50, 150, 180]`, values `[10, 20, 30, 40]`, `windowMs = 100`. -/
theorem aggregateByTimeWindow_spec_witness :
    (0 : ℚ) < 100 ∧
      ((aggregateByTimeWindow
            [⟨0, 10, "A"⟩, ⟨50, 20, "A"⟩, ⟨150, 30, "A"⟩, ⟨180, 40, "A"⟩] 100).map
            (fun q => q.timestamp)
          = bucketKeys
              [⟨0, 10, "A"⟩, ⟨50, 20, "A"⟩, ⟨150, 30, "A"⟩, ⟨180, 40, "A"⟩] 100 ∧
        (∀ k,
          k ∈ bucketKeys
                [⟨0, 10, "A"⟩, ⟨50, 20, "A"⟩, ⟨150, 30, "A"⟩, ⟨180, 40, "A"⟩] 100
            ↔ ∃ p ∈ [⟨0, 10, "A"⟩, ⟨50, 20, "A"⟩, ⟨150, 30, "A"⟩,
                (⟨180, 40, "A"⟩ : DataPoint)], windowKey 100 p.timestamp = k) ∧
        (bucketKeys
            [⟨0, 10, "A"⟩, ⟨50, 20, "A"⟩, ⟨150, 30, "A"⟩, ⟨180, 40, "A"⟩]
            100).Nodup ∧
        ∀ q ∈ aggregateByTimeWindow
            [⟨0, 10, "A"⟩, ⟨50, 20, "A"⟩, ⟨150, 30, "A"⟩, ⟨180, 40, "A"⟩] 100,
          q.value
              = bucketSum
                  [⟨0, 10, "A"⟩, ⟨50, 20, "A"⟩, ⟨150, 30, "A"⟩, ⟨180, 40, "A"⟩]
                  100 q.timestamp
                / (bucketCount
                    [⟨0, 10, "A"⟩, ⟨50, 20, "A"⟩, ⟨150, 30, "A"⟩, ⟨180, 40, "A"⟩]
                    100 q.timestamp : ℚ)
            ∧ q.category = "aggregated") :=
  ⟨by norm_num,
    aggregateByTimeWindow_spec
      [⟨0, 10, "A"⟩, ⟨50, 20, "A"⟩, ⟨150, 30, "A"⟩, ⟨180, 40, "A"⟩] 100
      (by norm_num)⟩

lemma bucketKeys_sublist_aux (w : ℚ) :
    ∀ (data : List DataPoint) (acc : List ℚ),
      ∃ t, (data.foldl
          (fun acc p =>
            if windowKey w p.timestamp ∈ acc then acc
            else acc ++ [windowKey w p.timestamp]) acc)
          = acc ++ t
        ∧ t.Sublist (data.map (fun p => windowKey w p.timestamp)) := by
  intro data
  induction data with
  | nil => exact fun acc => ⟨[], by simp, by simp⟩
  | cons q data ih =>
    intro acc
    rw [List.foldl_cons]
    by_cases hq : windowKey w q.timestamp ∈ acc
    · rw [if_pos hq]
      obtain ⟨t, ht, hsub⟩ := ih acc
      exact ⟨t, ht, hsub.cons _⟩
    · rw [if_neg hq]
      obtain ⟨t, ht, hsub⟩ := ih (acc ++ [windowKey w q.timestamp])
      refine ⟨windowKey w q.timestamp :: t, ?_, ?_⟩
      · rw [ht, List.append_assoc]
        rfl
      · exact hsub.cons₂ _

lemma bucketKeys_sublist (data : List DataPoint) (w : ℚ) :
    (bucketKeys data w).Sublist (data.map (fun p => windowKey w p.timestamp)) := by
  obtain ⟨t, ht, hsub⟩ := bucketKeys_sublist_aux w data []
  unfold bucketKeys
  rw [ht, List.nil_append]
  exact hsub

lemma windowKey_mono (w : ℚ) (hw : 0 < w) {a b : ℚ} (hab : a ≤ b) :
    windowKey w a ≤ windowKey w b := by
  unfold windowKey
  have h1 : a / w ≤ b / w := (div_le_div_iff_of_pos_right hw).mpr hab
  have h2 : (⌊a / w⌋ : ℤ) ≤ ⌊b / w⌋ := Int.floor_le_floor h1
  have h3 : ((⌊a / w⌋ : ℤ) : ℚ) ≤ ((⌊b / w⌋ : ℤ) : ℚ) := Int.cast_le.mpr h2
  exact mul_le_mul_of_nonneg_right h3 hw.le

/-- C10: for input with non-decreasing timestamps and `windowMs > 0`, the
aggregation's output timestamps are strictly ascending (the bucket map's
first-insertion order coincides with ascending bucket order), even though
no explicit sort is performed. -/
theorem aggregateByTimeWindow_monotone_ascending (data : List DataPoint)
    (w : ℚ) (hw : 0 < w)
    (hmono : (data.map (fun p => p.timestamp)).Pairwise (· ≤ ·)) :
    ((aggregateByTimeWindow data w).map (fun q => q.timestamp)).Pairwise
      (· < ·) := by
  rw [agg_timestamps data w]
  have hkeys : (data.map (fun p => windowKey w p.timestamp)).Pairwise (· ≤ ·) := by
    rw [List.pairwise_map] at hmono ⊢
    exact hmono.imp (fun hab => windowKey_mono w hw hab)
  have hle : (bucketKeys data w).Pairwise (· ≤ ·) :=
    List.Pairwise.sublist (bucketKeys_sublist data w) hkeys
  have hnd : (bucketKeys data w).Nodup := bucketKeys_nodup data w
  exact (hle.and hnd).imp (fun h => lt_of_le_of_ne h.1 h.2)

/-- Witness for C10 at the monotone input with timestamps
`[0, 50, 150, 180]` and `windowMs = 100`. -/
theorem aggregateByTimeWindow_monotone_ascending_witness :
    ((0 : ℚ) < 100 ∧
      (([⟨0, 10, "A"⟩, ⟨50, 20, "A"⟩, ⟨150, 30, "A"⟩,
          (⟨180, 40, "A"⟩ : DataPoint)].map (fun p => p.timestamp)).Pairwise
        (· ≤ ·))) ∧
      ((aggregateByTimeWindow
          [⟨0, 10, "A"⟩, ⟨50, 20, "A"⟩, ⟨150, 30, "A"⟩, ⟨180, 40, "A"⟩]
          100).map (fun q => q.timestamp)).Pairwise (· < ·) :=
  ⟨⟨by norm_num, by norm_num [List.pairwise_cons]⟩,
    aggregateByTimeWindow_monotone_ascending
      [⟨0, 10, "A"⟩, ⟨50, 20, "A"⟩, ⟨150, 30, "A"⟩, ⟨180, 40, "A"⟩] 100
      (by norm_num) (by norm_num [List.pairwise_cons])⟩
